import Mathlib

/-!
Verification development for `proxy_check_with_testspeed.py`, a concurrent
HTTP-proxy checker.  The per-proxy validation pipeline `check_proxy` is
embedded as a pure function from the proxy string, the configuration and a
record of network-probe outcomes to a structured result; the lock-protected
counter updates of a whole run are modelled by per-invocation sequences of
atomic critical sections, so that counter invariants can be settled for every
worker interleaving.
-/

namespace ProxyCheck

/-- Proxy strings, hosts and ports are modelled as lists of characters. -/
abbrev Str := List Char

/-- Splitting at the first colon, mirroring Python `proxy_str.split(':', 1)`
combined with the two-variable unpacking in `check_proxy`: the result is
`none` exactly when the string contains no colon (unpacking a one-element
list raises `ValueError`, caught by the format-check handler). -/
def splitFirstColon : Str → Option (Str × Str)
  | [] => none
  | c :: cs =>
    if c = ':' then some ([], cs)
    else
      match splitFirstColon cs with
      | some (a, b) => some (c :: a, b)
      | none => none

/-- Numeric value of a string of ASCII digits, mirroring Python `int(s)`. -/
def natOfDigits : Str → Nat :=
  List.foldl (fun acc c => acc * 10 + (c.toNat - '0'.toNat)) 0

/-- Port validation from `check_proxy`:
`proxy_port.isdigit() and (0 < int(proxy_port) < 65536)`. -/
def portValid (p : Str) : Bool :=
  !p.isEmpty && p.all Char.isDigit &&
    decide (0 < natOfDigits p) && decide (natOfDigits p < 65536)

/-- Format validity of a whole `host:port` string: it splits at a colon and
the port part passes `portValid`.  `check_proxy` probes the network exactly
for such strings. -/
def formatOk (s : Str) : Bool :=
  match splitFirstColon s with
  | some (_, p) => portValid p
  | none => false

/-- Splitting on dots, helper for the IPv4 parser of `ipaddress`. -/
def splitDots : Str → List Str
  | [] => [[]]
  | c :: cs =>
    let rest := splitDots cs
    if c = '.' then [] :: rest
    else (c :: rest.headD []) :: rest.tail

/-- Parsing of one dotted-quad octet as done by `ipaddress.IPv4Address`:
one to three ASCII digits, no leading zero, value at most 255. -/
def parseOctet (s : Str) : Option Nat :=
  if s.isEmpty || !s.all Char.isDigit || decide (s.length > 3) then none
  else if decide (s.length > 1) && s.headD '0' = '0' then none
  else if natOfDigits s ≤ 255 then some (natOfDigits s) else none

/-- Parsing of an IPv4 dotted-quad literal.  A host obtained from splitting
`host:port` at the first colon can never contain a colon, so the IPv6 branch
of `ipaddress.ip_address` is unreachable for it and only IPv4 literals can
parse. -/
def parseIPv4 (s : Str) : Option (Nat × Nat × Nat × Nat) :=
  match (splitDots s).map parseOctet with
  | [some a, some b, some c, some d] => some (a, b, c, d)
  | _ => none

/-- Private IPv4 networks recognised by `IPv4Address.is_private`
(0.0.0.0/8, 10/8, 127/8, 169.254/16, 172.16/12, 192.0.0/29, 192.0.0.170/31,
192.0.2/24, 192.168/16, 198.18/15, 198.51.100/24, 203.0.113/24, 240/4 and
255.255.255.255/32, the last being inside 240/4). -/
def ipv4IsPrivate (a b c d : Nat) : Bool :=
  a == 0 || a == 10 || a == 127 ||
  (a == 169 && b == 254) ||
  (a == 172 && decide (16 ≤ b) && decide (b ≤ 31)) ||
  (a == 192 && b == 0 && c == 0 && (decide (d ≤ 7) || d == 170 || d == 171)) ||
  (a == 192 && b == 0 && c == 2) ||
  (a == 192 && b == 168) ||
  (a == 198 && (b == 18 || b == 19)) ||
  (a == 198 && b == 51 && c == 100) ||
  (a == 203 && b == 0 && c == 113) ||
  decide (240 ≤ a)

/-- Loopback network 127.0.0.0/8, as `IPv4Address.is_loopback`. -/
def ipv4IsLoopback (a : Nat) : Bool := a == 127

/-- Mirrors `is_private_ip`: parse the address with `ipaddress.ip_address`
and return `is_private or is_loopback`; the `ValueError` of an unparsable
host (for example a DNS name) yields `False`. -/
def is_private_ip (s : Str) : Bool :=
  match parseIPv4 s with
  | some (a, b, c, d) => ipv4IsPrivate a b c d || ipv4IsLoopback a
  | none => false

/-- Configuration snapshot consumed by one `check_proxy` invocation (the
fields it reads). -/
structure Config where
  timeout : Nat
  max_ms : Nat
  enable_ping : Bool
  ping_timeout_ms : Nat
  enable_speed_test : Bool
  speed_min_good_kbps : Nat
deriving DecidableEq

/-- Outcome of the IP-echo request of step 1 as classified by its handlers:
a successful response carrying a seen IP string, a `requests` timeout, any
other handled error (`RequestException`, `JSONDecodeError`, `KeyError`), or
an exception of no handled class, which reaches the outer handler. -/
inductive IpCheckNet
  | ok (seen : Str)
  | timeout
  | reqError (ename : String)
  | unexpected (ename : String)
deriving DecidableEq

/-- Outcome of the host HEAD request of step 2, classified the same way
(for handled errors the optional HTTP status information is carried). -/
inductive HostCheckNet
  | ok (latency_ms : Nat)
  | timeout
  | reqError (ename : String) (statusInfo : String)
  | unexpected (ename : String)
deriving DecidableEq

/-- Outcome of the ping subprocess as classified inside `ping_host`:
a parsed round-trip time, any failure answered by returning `None`
(nonzero exit status, unparsable output, `TimeoutExpired`, other exception),
or `FileNotFoundError` for the missing ping binary. -/
inductive PingNet
  | ok (ms : Nat)
  | fail
  | toolMissing
deriving DecidableEq

/-- Network and filesystem behaviour experienced by one invocation:
one outcome per probe plus whether the export-file append succeeds
(`IOError` is caught inside the critical section when it does not). -/
structure Net where
  ipCheck : IpCheckNet
  hostCheck : HostCheckNet
  ping : PingNet
  speed : Option Nat
  writeOk : Bool
deriving DecidableEq

/-- Pieces of the assembled diagnostic (`status_parts`): the latency field
with its green/yellow colouring, a measured ping, the ping `N/A` marker, a
measured speed with its colouring, and the speed `N/A` marker. -/
inductive StatusPart
  | latency (ms : Nat) (fast : Bool)
  | pingVal (ms : Nat)
  | pingNA
  | speedVal (kbps : Nat) (goodColor : Bool)
  | speedNA
deriving DecidableEq

/-- Diagnostic message (`result_message`) printed for one proxy, at the level
of its semantic content. -/
inductive Diag
  | invalidFormat
  | invalidPort
  | ipMismatch (expected seen : Str)
  | ipTimeout
  | ipError (ename : String)
  | hostTimeout
  | hostError (ename statusInfo : String)
  | unexpectedError (ename : String)
  | statusLine (ps : List StatusPart)
deriving DecidableEq

/-- Parts of a `statusLine` diagnostic; failure diagnostics carry none. -/
def diagParts : Diag → List StatusPart
  | .statusLine ps => ps
  | _ => []

/-- Terminal colour attached to the diagnostic (`status_color`). -/
inductive Color
  | red
  | green
  | yellow
deriving DecidableEq

/-- Mirrors `ping_host` as seen by its caller: the returned latency and
whether the `FileNotFoundError` handler ran, which stores `False` into the
shared `config['enable_ping']`.  All other failures return `None` without
touching the flag. -/
def ping_host (outcome : PingNet) : Option Nat × Bool :=
  match outcome with
  | .ok ms => (some ms, false)
  | .fail => (none, false)
  | .toolMissing => (none, true)

/-- Observable effects of one `check_proxy` invocation: whether the cleanup
block incremented `checked_count`, whether a line was appended to the sink,
whether `good_proxies_count` was incremented, which probes were attempted,
the final colour and message, and whether this invocation stored `False`
into the shared `enable_ping` flag. -/
structure CheckResult where
  counted : Bool
  written : Bool
  goodInc : Bool
  ipProbeRan : Bool
  hostProbeRan : Bool
  pingProbeRan : Bool
  speedProbeRan : Bool
  statusColor : Color
  message : Diag
  disablePing : Bool
deriving DecidableEq

/-- Result of the format-check failure path: `check_proxy` returns before the
outer try/finally, so nothing is probed, written or counted. -/
def formatFail (d : Diag) : CheckResult :=
  { counted := false, written := false, goodInc := false, ipProbeRan := false,
    hostProbeRan := false, pingProbeRan := false, speedProbeRan := false,
    statusColor := .red, message := d, disablePing := false }

/-- Result of a network-stage failure: the raised `ValueError` (or the
unexpected exception) lands in the outer handler, the colour is red, nothing
is written, and the cleanup block still increments `checked_count`. -/
def netFail (ipRan hostRan : Bool) (d : Diag) : CheckResult :=
  { counted := true, written := false, goodInc := false, ipProbeRan := ipRan,
    hostProbeRan := hostRan, pingProbeRan := false, speedProbeRan := false,
    statusColor := .red, message := d, disablePing := false }

/-- Steps 2 to 4 of `check_proxy` plus diagnostic assembly and the
conditional sink append, for a proxy that passed (or skipped) the IP check.
Notes kept close to the source: `enable_ping` is read a second time when
assembling the ping `N/A` marker, and a `FileNotFoundError` inside this very
invocation's ping has already stored `False` by then, so the marker is
omitted in that case; the sink line and the `good_proxies_count` increment
happen only when the colour is green, and the increment follows the append
inside the same `try`, so a failed append suppresses it. -/
def hostStage (proxy_is_private : Bool) (cfg : Config) (net : Net) : CheckResult :=
  match net.hostCheck with
  | .timeout => netFail (!proxy_is_private) true .hostTimeout
  | .reqError e s => netFail (!proxy_is_private) true (.hostError e s)
  | .unexpected e => netFail (!proxy_is_private) true (.unexpectedError e)
  | .ok lat =>
    let pinged := if cfg.enable_ping then ping_host net.ping else (none, false)
    let ping_result_ms := pinged.1
    let disable := pinged.2
    let speed_result_kbps := if cfg.enable_speed_test then net.speed else none
    let enable_ping_now := cfg.enable_ping && !disable
    let fast := decide (lat < cfg.max_ms)
    let parts := [StatusPart.latency lat fast]
      ++ (match ping_result_ms with
          | some ms => [StatusPart.pingVal ms]
          | none => if enable_ping_now then [StatusPart.pingNA] else [])
      ++ (match speed_result_kbps with
          | some k => [StatusPart.speedVal k (decide (cfg.speed_min_good_kbps ≤ k))]
          | none => if cfg.enable_speed_test then [StatusPart.speedNA] else [])
    let wrote := fast && net.writeOk
    { counted := true, written := wrote, goodInc := wrote,
      ipProbeRan := !proxy_is_private, hostProbeRan := true,
      pingProbeRan := cfg.enable_ping, speedProbeRan := cfg.enable_speed_test,
      statusColor := if fast then .green else .yellow,
      message := .statusLine parts, disablePing := disable }

/-- Step 1 of `check_proxy`: the IP-echo probe, performed only when the
proxy's own IP is not private/loopback; a reported IP differing from the
declared one, a timeout and a handled transport error each raise a
`ValueError` answered by the outer handler. -/
def ipStage (proxy_ip : Str) (cfg : Config) (net : Net) : CheckResult :=
  let priv := is_private_ip proxy_ip
  if priv then hostStage priv cfg net
  else
    match net.ipCheck with
    | .timeout => netFail true false .ipTimeout
    | .reqError e => netFail true false (.ipError e)
    | .unexpected e => netFail true false (.unexpectedError e)
    | .ok seen =>
      if seen ≠ proxy_ip then netFail true false (.ipMismatch proxy_ip seen)
      else hostStage priv cfg net

/-- Shallow embedding of `check_proxy`: format check, then the probe
sequence.  All network behaviour is supplied by `net`. -/
def check_proxy (proxy_str : Str) (cfg : Config) (net : Net) : CheckResult :=
  match splitFirstColon proxy_str with
  | none => formatFail .invalidFormat
  | some (proxy_ip, proxy_port) =>
    if !portValid proxy_port then formatFail .invalidPort
    else ipStage proxy_ip cfg net

/-- Python `str.strip` whitespace set (the ASCII part, which is what proxy
list files contain). -/
def pySpace (c : Char) : Bool :=
  c == ' ' || c == '\t' || c == '\n' || c == '\r' || c == '\x0b' || c == '\x0c'

/-- Mirrors `line.strip()`. -/
def pyStrip (s : Str) : Str :=
  ((s.dropWhile pySpace).reverse.dropWhile pySpace).reverse

/-- Mirrors `load_proxies`: every line of every readable import file is
stripped, nonempty stripped lines containing a colon are accumulated into a
set, and the set is returned as a list.  The set is modelled by `dedup`;
files that fail to open contribute no lines, as their handlers only print. -/
def load_proxies (files : List (List Str)) : List Str :=
  (((files.flatten).map pyStrip).filter fun l => !l.isEmpty && l.contains ':').dedup

/-- Atomic lock-protected counter updates.  `good` is the
`good_proxies_count` increment performed together with the sink append;
`checked` is the `checked_count` increment of the cleanup block, inside
which the title-bar snapshot reads both counters. -/
inductive LockStep
  | good
  | checked
deriving DecidableEq

/-- Lock-protected counter updates of one invocation in program order: a
passing invocation first takes the lock to append its line and bump
`good_proxies_count`, and later reacquires it in the cleanup block to bump
`checked_count`; a counted failing invocation only runs the cleanup section;
a format failure returns before either. -/
def lockProgram (r : CheckResult) : List LockStep :=
  if r.counted then (if r.goodInc then [.good, .checked] else [.checked]) else []

/-- Run state under interleaving: each invocation's result paired with how
many of its lock-protected sections have executed.  Because every section is
atomic under the single global lock and different invocations never wait for
each other between sections, the states reachable under arbitrary worker
interleavings are exactly those in which each invocation has completed a
prefix of its own section sequence. -/
abbrev RunState := List (CheckResult × Nat)

/-- Lock sections already executed by one invocation. -/
def doneSteps (x : CheckResult × Nat) : List LockStep :=
  (lockProgram x.1).take x.2

/-- Value of `checked_count` in a state. -/
def checkedCount (s : RunState) : Nat :=
  (s.map fun x => (doneSteps x).count LockStep.checked).sum

/-- Value of `good_proxies_count` in a state. -/
def goodCount (s : RunState) : Nat :=
  (s.map fun x => (doneSteps x).count LockStep.good).sum

/-- States reachable under some interleaving. -/
def ValidState (s : RunState) : Prop :=
  ∀ x ∈ s, x.2 ≤ (lockProgram x.1).length

/-- State at pool drain: every invocation has run all its sections. -/
def CompleteState (s : RunState) : Prop :=
  ∀ x ∈ s, x.2 = (lockProgram x.1).length

/-- States at which a title-bar progress snapshot is taken: some counted
invocation has just finished its final section, the `checked` one, inside
which the snapshot reads both counters.  The interleaving that schedules
that section last realises the snapshot at exactly this state's counters. -/
def SnapshotPoint (s : RunState) : Prop :=
  ∃ x ∈ s, x.1.counted = true ∧ x.2 = (lockProgram x.1).length

instance (s : RunState) : Decidable (ValidState s) := by
  unfold ValidState
  infer_instance

instance (s : RunState) : Decidable (CompleteState s) := by
  unfold CompleteState
  infer_instance

instance (s : RunState) : Decidable (SnapshotPoint s) := by
  unfold SnapshotPoint
  infer_instance

/-- Results of the dispatched invocations, one per input proxy. -/
def results (inputs : List (Str × Config × Net)) : List CheckResult :=
  inputs.map fun t => check_proxy t.1 t.2.1 t.2.2

/-- Run state assembled from per-invocation progress counts. -/
def runState (inputs : List (Str × Config × Net)) (progress : List Nat) : RunState :=
  (results inputs).zip progress

/-- Final content of the output sink as the collection of appended lines (in
dispatch order; the order on disk depends on the schedule, which no claim
depends on).  Each element is one whole `host:port` line followed by a
newline, written in one call inside the lock-protected section. -/
def sinkLines (inputs : List (Str × Config × Net)) : List Str :=
  (inputs.filter fun t => (check_proxy t.1 t.2.1 t.2.2).written).map
    fun t => t.1 ++ ['\n']

/-- Idempotent store modelling `config['enable_ping'] = False`: a detection
stores `False`, anything else leaves the flag alone. -/
def storeFalse (flag : Bool) (detected : Bool) : Bool :=
  if detected then false else flag

/-- Final value of the shared `enable_ping` flag after a sequence of
detection events (in any order the workers produced them). -/
def finalFlag (flag : Bool) (ds : List Bool) : Bool :=
  ds.foldl storeFalse flag

/-- Sequential reference semantics of the shared `enable_ping` flag: each
invocation reads the current flag, and an invocation whose ping hit
`FileNotFoundError` stores `False` for every invocation after it. -/
def seqRun (flag : Bool) : List (Str × Config × Net) → List CheckResult
  | [] => []
  | t :: ts =>
    let r := check_proxy t.1 { t.2.1 with enable_ping := flag } t.2.2
    r :: seqRun (flag && !r.disablePing) ts

/-- Flag value after `seqRun` has processed a list of invocations: every
detection of the missing ping tool stores `False`. -/
def flagAfter (flag : Bool) : List (Str × Config × Net) → Bool
  | [] => flag
  | t :: ts =>
    flagAfter
      (flag && !(check_proxy t.1 { t.2.1 with enable_ping := flag } t.2.2).disablePing)
      ts

/-- Property of a result: classified as failing with diagnostic `d`, not
written to the sink, `good_proxies_count` untouched, but still counted by
the cleanup block. -/
def FailedWith (r : CheckResult) (d : Diag) : Prop :=
  r.statusColor = .red ∧ r.message = d ∧ r.written = false ∧
    r.goodInc = false ∧ r.counted = true

/-- Sample configuration for concrete witnesses: the default settings of the
script (ping on, speed test off, 5000 ms threshold). -/
def cfgW : Config :=
  { timeout := 10, max_ms := 5000, enable_ping := true, ping_timeout_ms := 1000,
    enable_speed_test := false, speed_min_good_kbps := 100 }

/-- Sample proxies with private hosts (the IP probe is skipped for them). -/
def proxyPrivA : Str := "10.0.0.1:8080".data

/-- Second private-host sample proxy. -/
def proxyPrivB : Str := "10.0.0.2:8080".data

/-- Sample proxy with a public host. -/
def proxyPub : Str := "8.8.8.8:3128".data

/-- Sample proxy specified by DNS name. -/
def proxyHost : Str := "proxy.example.com:8080".data

/-- Network behaviour: everything fine, 100 ms host latency. -/
def netPrivPass : Net :=
  { ipCheck := .ok [], hostCheck := .ok 100, ping := .fail, speed := none,
    writeOk := true }

/-- Network behaviour: reachable but slow (6000 ms host latency). -/
def netSlow : Net := { netPrivPass with hostCheck := .ok 6000 }

/-- Network behaviour: the IP-echo request times out. -/
def netIpTimeout : Net := { netPrivPass with ipCheck := .timeout }

/-- Network behaviour: an unhandled exception class during the IP check. -/
def netUnexpectedIp : Net :=
  { netPrivPass with ipCheck := .unexpected "RuntimeError" }

/-- Network behaviour: the echo service reports a public IP literal. -/
def netEchoIp : Net := { netPrivPass with ipCheck := .ok ("93.184.216.34".data) }

/-- Network behaviour: ping succeeds with 42 ms. -/
def netPingOk : Net := { netPrivPass with ping := .ok 42 }

/-- Two passing invocations over distinct private-host proxies, the sample
run used by the concrete counter-interleaving statements. -/
def exInputs : List (Str × Config × Net) :=
  [(proxyPrivA, cfgW, netPrivPass), (proxyPrivB, cfgW, netPrivPass)]

/-- Sample import files: the same address, once with surrounding blanks,
spread over two files. -/
def filesW : List (List Str) :=
  [[" 10.0.0.1:8080 ".data, "10.0.0.1:8080".data], ["10.0.0.1:8080".data]]

/-- The run dispatched over the deduplicated sample files. -/
def inputsW : List (Str × Config × Net) := [(proxyPrivA, cfgW, netPrivPass)]

/-- One invocation whose ping discovers the missing ping binary. -/
def exToolMissing : List (Str × Config × Net) :=
  [(proxyPrivA, cfgW, { netPrivPass with ping := .toolMissing })]

/-!  Helper lemmas about the stages of `check_proxy`.  -/

theorem hostStage_counted (b : Bool) (cfg : Config) (net : Net) :
    (hostStage b cfg net).counted = true := by
  obtain ⟨ipc, host, ping, speed, w⟩ := net
  unfold hostStage
  cases host <;> rfl

theorem ipStage_counted (ip : Str) (cfg : Config) (net : Net) :
    (ipStage ip cfg net).counted = true := by
  unfold ipStage
  by_cases hpriv : is_private_ip ip
  · simp [hpriv, hostStage_counted]
  · obtain ⟨ipc, host, ping, speed, w⟩ := net
    simp only [hpriv]
    cases ipc with
    | ok seen =>
      by_cases hs : seen = ip <;> simp [hs, hostStage_counted, netFail]
    | timeout => simp [netFail]
    | reqError e => simp [netFail]
    | unexpected e => simp [netFail]

theorem check_proxy_counted (proxy : Str) (cfg : Config) (net : Net) :
    (check_proxy proxy cfg net).counted = formatOk proxy := by
  unfold check_proxy formatOk
  cases hs : splitFirstColon proxy with
  | none => rfl
  | some hp =>
    obtain ⟨ip, port⟩ := hp
    by_cases hpv : portValid port
    · simp [hpv, ipStage_counted]
    · simp [hpv, formatFail]

theorem check_proxy_eq_ipStage (proxy h p : Str) (cfg : Config) (net : Net)
    (hsplit : splitFirstColon proxy = some (h, p))
    (hport : portValid p = true) :
    check_proxy proxy cfg net = ipStage h cfg net := by
  unfold check_proxy
  rw [hsplit]
  simp [hport]

theorem ipStage_eq_hostStage (h : Str) (cfg : Config) (net : Net)
    (hanon : is_private_ip h = true ∨ net.ipCheck = IpCheckNet.ok h) :
    ipStage h cfg net = hostStage (is_private_ip h) cfg net := by
  unfold ipStage
  rcases hanon with hpriv | hok
  · simp [hpriv]
  · by_cases hpriv : is_private_ip h
    · simp [hpriv]
    · simp [hpriv, hok]

theorem hostStage_ipProbeRan (b : Bool) (cfg : Config) (net : Net) :
    (hostStage b cfg net).ipProbeRan = !b := by
  obtain ⟨ipc, host, ping, speed, w⟩ := net
  unfold hostStage
  cases host <;> rfl

theorem ipStage_ipProbeRan (ip : Str) (cfg : Config) (net : Net) :
    (ipStage ip cfg net).ipProbeRan = !(is_private_ip ip) := by
  unfold ipStage
  by_cases hpriv : is_private_ip ip
  · simp [hpriv, hostStage_ipProbeRan]
  · obtain ⟨ipc, host, ping, speed, w⟩ := net
    simp only [hpriv]
    cases ipc with
    | ok seen =>
      by_cases hs : seen = ip <;>
        simp [hs, hostStage_ipProbeRan, netFail, Bool.not_false,
          eq_false_of_ne_true (by simpa using hpriv)]
    | timeout => simp [netFail, eq_false_of_ne_true (by simpa using hpriv)]
    | reqError e => simp [netFail, eq_false_of_ne_true (by simpa using hpriv)]
    | unexpected e => simp [netFail, eq_false_of_ne_true (by simpa using hpriv)]

theorem netFail_failedWith (a b : Bool) (d : Diag) :
    FailedWith (netFail a b d) d :=
  ⟨rfl, rfl, rfl, rfl, rfl⟩

/-!  Claim theorems.  -/

/-- C3: an input whose port part is non-numeric or not strictly between
0 and 65536, or that cannot be split at a colon, is exactly the input on
which `check_proxy` returns without incrementing `checked_count`, and on
such an input no probe is attempted. -/
theorem claim3_format_failure_only_uncounted (proxy : Str) (cfg : Config) (net : Net) :
    ((check_proxy proxy cfg net).counted = false ↔ formatOk proxy = false) ∧
    (formatOk proxy = false →
      (check_proxy proxy cfg net).ipProbeRan = false ∧
      (check_proxy proxy cfg net).hostProbeRan = false ∧
      (check_proxy proxy cfg net).pingProbeRan = false ∧
      (check_proxy proxy cfg net).speedProbeRan = false) := by
  constructor
  · rw [check_proxy_counted]
  · intro hbad
    unfold check_proxy
    unfold formatOk at hbad
    cases hs : splitFirstColon proxy with
    | none => simp [formatFail]
    | some hp =>
      obtain ⟨ip, port⟩ := hp
      rw [hs] at hbad
      simp only [] at hbad
      simp [hbad, formatFail]

/-- C1: for a well-formed proxy whose anonymity check (when required)
succeeded and whose latency probe measured `lat`, with a writable sink, the
proxy is appended to the sink and counted good exactly when
`lat < max_ms` (strict); with `lat ≥ max_ms` it is coloured yellow, carries
the slow latency field in its diagnostic, and is neither written nor counted
good. -/
theorem claim1_latency_threshold_gates_sink
    (proxy h p : Str) (cfg : Config) (net : Net) (lat : Nat)
    (hsplit : splitFirstColon proxy = some (h, p))
    (hport : portValid p = true)
    (hanon : is_private_ip h = true ∨ net.ipCheck = IpCheckNet.ok h)
    (hhost : net.hostCheck = HostCheckNet.ok lat)
    (hw : net.writeOk = true) :
    ((check_proxy proxy cfg net).written = true ↔ lat < cfg.max_ms) ∧
    ((check_proxy proxy cfg net).goodInc = true ↔ lat < cfg.max_ms) ∧
    (lat < cfg.max_ms → (check_proxy proxy cfg net).statusColor = Color.green) ∧
    (cfg.max_ms ≤ lat →
      (check_proxy proxy cfg net).statusColor = Color.yellow ∧
      (check_proxy proxy cfg net).written = false ∧
      (check_proxy proxy cfg net).goodInc = false ∧
      StatusPart.latency lat false ∈ diagParts (check_proxy proxy cfg net).message) := by
  rw [check_proxy_eq_ipStage proxy h p cfg net hsplit hport,
      ipStage_eq_hostStage h cfg net hanon]
  refine ⟨?_, ?_, ?_, ?_⟩
  · simp [hostStage, hhost, hw]
  · simp [hostStage, hhost, hw]
  · intro hlt
    simp [hostStage, hhost, hlt]
  · intro hge
    have hlt : ¬ (lat < cfg.max_ms) := Nat.not_lt.mpr hge
    simp [hostStage, hhost, hlt, diagParts]

/-- Witness for C1 at a concrete passing proxy: 100 ms against a 5000 ms
threshold lands the address in the sink. -/
theorem claim1_witness :
    (check_proxy proxyPrivA cfgW netPrivPass).written = true :=
  (claim1_latency_threshold_gates_sink proxyPrivA ("10.0.0.1".data) ("8080".data)
    cfgW netPrivPass 100 (by decide) (by decide) (Or.inl (by decide)) (by decide)
    (by decide)).1.mpr (by decide)

/-- C5: the IP-echo anonymity probe runs exactly when the proxy host is not
a private or loopback address, and a timeout, a handled transport error or a
reported IP differing from the declared host each classify the proxy as
failing with the anonymity reason as diagnostic, keep it out of the sink,
and still let `checked_count` increment. -/
theorem claim5_anonymity_gate_and_failures
    (proxy h p : Str) (cfg : Config) (net : Net)
    (hsplit : splitFirstColon proxy = some (h, p))
    (hport : portValid p = true) :
    ((check_proxy proxy cfg net).ipProbeRan = !(is_private_ip h)) ∧
    (is_private_ip h = false →
      (net.ipCheck = IpCheckNet.timeout →
        FailedWith (check_proxy proxy cfg net) Diag.ipTimeout) ∧
      (∀ e, net.ipCheck = IpCheckNet.reqError e →
        FailedWith (check_proxy proxy cfg net) (Diag.ipError e)) ∧
      (∀ seen, net.ipCheck = IpCheckNet.ok seen → seen ≠ h →
        FailedWith (check_proxy proxy cfg net) (Diag.ipMismatch h seen))) := by
  rw [check_proxy_eq_ipStage proxy h p cfg net hsplit hport]
  refine ⟨ipStage_ipProbeRan h cfg net, fun hpriv => ⟨?_, ?_, ?_⟩⟩
  · intro hip
    unfold ipStage
    simp [hpriv, hip]
    exact netFail_failedWith true false Diag.ipTimeout
  · intro e hip
    unfold ipStage
    simp [hpriv, hip]
    exact netFail_failedWith true false (Diag.ipError e)
  · intro seen hip hne
    unfold ipStage
    simp [hpriv, hip, hne]
    exact netFail_failedWith true false (Diag.ipMismatch h seen)

/-- Witness for C5 at a concrete public-host proxy whose IP check times
out. -/
theorem claim5_witness :
    FailedWith (check_proxy proxyPub cfgW netIpTimeout) Diag.ipTimeout :=
  ((claim5_anonymity_gate_and_failures proxyPub ("8.8.8.8".data) ("3128".data)
      cfgW netIpTimeout (by decide) (by decide)).2 (by decide)).1 (by decide)

/-- C7: an exception of a class no stage handler catches is absorbed by the
boundary handler of `check_proxy`, turned into the unexpected-error
diagnostic of a failing, unwritten proxy, and the cleanup path still
increments `checked_count` exactly once (one `checked` lock section). -/
theorem claim7_unexpected_error_contained
    (proxy h p : Str) (cfg : Config) (net : Net) (e : String)
    (hsplit : splitFirstColon proxy = some (h, p))
    (hport : portValid p = true)
    (hu : (is_private_ip h = false ∧ net.ipCheck = IpCheckNet.unexpected e) ∨
          ((is_private_ip h = true ∨ net.ipCheck = IpCheckNet.ok h) ∧
            net.hostCheck = HostCheckNet.unexpected e)) :
    FailedWith (check_proxy proxy cfg net) (Diag.unexpectedError e) ∧
    (lockProgram (check_proxy proxy cfg net)).count LockStep.checked = 1 := by
  rw [check_proxy_eq_ipStage proxy h p cfg net hsplit hport]
  have hres : FailedWith (ipStage h cfg net) (Diag.unexpectedError e) := by
    rcases hu with ⟨hpriv, hip⟩ | ⟨hanon, hhost⟩
    · unfold ipStage
      simp [hpriv, hip]
      exact netFail_failedWith true false (Diag.unexpectedError e)
    · rw [ipStage_eq_hostStage h cfg net hanon]
      simp [hostStage, hhost]
      exact netFail_failedWith (!is_private_ip h) true (Diag.unexpectedError e)
  refine ⟨hres, ?_⟩
  simp [lockProgram, ipStage_counted, hres.2.2.2.1]

/-- Witness for C7 at a concrete proxy whose IP check raises an unhandled
exception class. -/
theorem claim7_witness :
    FailedWith (check_proxy proxyPub cfgW netUnexpectedIp)
      (Diag.unexpectedError "RuntimeError") ∧
    (lockProgram (check_proxy proxyPub cfgW netUnexpectedIp)).count
      LockStep.checked = 1 :=
  claim7_unexpected_error_contained proxyPub ("8.8.8.8".data) ("3128".data) cfgW
    netUnexpectedIp "RuntimeError" (by decide) (by decide)
    (Or.inl ⟨by decide, by decide⟩)

/-- C10: a proxy whose host is a DNS name (no IPv4 literal) is never
private, so the anonymity probe always runs; when the echo succeeds and, as
an IP-echo service does, reports an IP literal, the literal cannot equal the
DNS name, so the proxy fails with the mismatch diagnostic — and whatever the
network does, such a proxy is never written to the sink. -/
theorem claim10_hostname_proxy_never_passes
    (proxy h p : Str) (cfg : Config) (net : Net)
    (hsplit : splitFirstColon proxy = some (h, p))
    (hport : portValid p = true)
    (hdns : parseIPv4 h = none)
    (hecho : ∀ seen, net.ipCheck = IpCheckNet.ok seen →
      (parseIPv4 seen).isSome = true) :
    is_private_ip h = false ∧
    (check_proxy proxy cfg net).ipProbeRan = true ∧
    (∀ seen, net.ipCheck = IpCheckNet.ok seen →
      FailedWith (check_proxy proxy cfg net) (Diag.ipMismatch h seen)) ∧
    (check_proxy proxy cfg net).written = false ∧
    (check_proxy proxy cfg net).goodInc = false := by
  have hpriv : is_private_ip h = false := by
    unfold is_private_ip
    rw [hdns]
  rw [check_proxy_eq_ipStage proxy h p cfg net hsplit hport]
  have hne : ∀ seen, net.ipCheck = IpCheckNet.ok seen → seen ≠ h := by
    intro seen hip heq
    have hsome := hecho seen hip
    rw [heq, hdns] at hsome
    simp at hsome
  have hmm : ∀ seen, net.ipCheck = IpCheckNet.ok seen →
      FailedWith (ipStage h cfg net) (Diag.ipMismatch h seen) := by
    intro seen hip
    unfold ipStage
    simp [hpriv, hip, hne seen hip]
    exact netFail_failedWith true false (Diag.ipMismatch h seen)
  have hwg : (ipStage h cfg net).written = false ∧
      (ipStage h cfg net).goodInc = false := by
    cases hip : net.ipCheck with
    | ok seen => exact ⟨(hmm seen hip).2.2.1, (hmm seen hip).2.2.2.1⟩
    | timeout =>
      unfold ipStage
      simp [hpriv, hip, netFail]
    | reqError e2 =>
      unfold ipStage
      simp [hpriv, hip, netFail]
    | unexpected e2 =>
      unfold ipStage
      simp [hpriv, hip, netFail]
  refine ⟨hpriv, ?_, hmm, hwg.1, hwg.2⟩
  rw [ipStage_ipProbeRan]
  simp [hpriv]

/-- C6: for a proxy that reaches diagnostic assembly, the ping and speed
fields each appear as a measured value when the probe returned one, as the
`N/A` marker when the enable flag (as read at assembly time) is set but the
probe returned no value, and are omitted when the flag is unset — in
particular a configuration with ping disabled never produces a ping field.
When this very invocation's ping found the tool missing, the flag has
already been stored `False` by `ping_host` before the assembly reads it, so
the field is omitted rather than marked `N/A`. -/
theorem claim6_diagnostic_fields
    (proxy h p : Str) (cfg : Config) (net : Net) (lat : Nat)
    (hsplit : splitFirstColon proxy = some (h, p))
    (hport : portValid p = true)
    (hanon : is_private_ip h = true ∨ net.ipCheck = IpCheckNet.ok h)
    (hhost : net.hostCheck = HostCheckNet.ok lat) :
    (cfg.enable_ping = false →
      ∀ part ∈ diagParts (check_proxy proxy cfg net).message,
        (∀ m, part ≠ StatusPart.pingVal m) ∧ part ≠ StatusPart.pingNA) ∧
    (cfg.enable_ping = true → ∀ m, net.ping = PingNet.ok m →
      StatusPart.pingVal m ∈ diagParts (check_proxy proxy cfg net).message) ∧
    (cfg.enable_ping = true → net.ping = PingNet.fail →
      StatusPart.pingNA ∈ diagParts (check_proxy proxy cfg net).message) ∧
    (cfg.enable_ping = true → net.ping = PingNet.toolMissing →
      ∀ part ∈ diagParts (check_proxy proxy cfg net).message,
        (∀ m, part ≠ StatusPart.pingVal m) ∧ part ≠ StatusPart.pingNA) ∧
    (cfg.enable_speed_test = false →
      ∀ part ∈ diagParts (check_proxy proxy cfg net).message,
        (∀ k b, part ≠ StatusPart.speedVal k b) ∧ part ≠ StatusPart.speedNA) ∧
    (cfg.enable_speed_test = true → ∀ k, net.speed = some k →
      StatusPart.speedVal k (decide (cfg.speed_min_good_kbps ≤ k)) ∈
        diagParts (check_proxy proxy cfg net).message) ∧
    (cfg.enable_speed_test = true → net.speed = none →
      StatusPart.speedNA ∈ diagParts (check_proxy proxy cfg net).message) := by
  rw [check_proxy_eq_ipStage proxy h p cfg net hsplit hport,
      ipStage_eq_hostStage h cfg net hanon]
  cases hep : cfg.enable_ping <;> cases hpg : net.ping <;>
    cases hst : cfg.enable_speed_test <;> cases hsp : net.speed <;>
      simp [hostStage, hhost, hep, hpg, hst, hsp, ping_host, diagParts]

/-- Witness for C6 at a concrete proxy with a successful 42 ms ping: the
measured value appears in the diagnostic. -/
theorem claim6_witness :
    StatusPart.pingVal 42 ∈ diagParts (check_proxy proxyPrivA cfgW netPingOk).message :=
  (claim6_diagnostic_fields proxyPrivA ("10.0.0.1".data) ("8080".data) cfgW
    netPingOk 100 (by decide) (by decide) (Or.inl (by decide))
    (by decide)).2.1 (by decide) 42 (by decide)

theorem lockProgram_count_checked_le_one (r : CheckResult) :
    (lockProgram r).count LockStep.checked ≤ 1 := by
  cases hc : r.counted <;> cases hg : r.goodInc <;>
    simp [lockProgram, hc, hg]

theorem lockProgram_count_good_le_checked (r : CheckResult) :
    (lockProgram r).count LockStep.good ≤ (lockProgram r).count LockStep.checked := by
  cases hc : r.counted <;> cases hg : r.goodInc <;>
    simp [lockProgram, hc, hg]

theorem lockProgram_count_checked_of_counted (r : CheckResult)
    (hc : r.counted = true) :
    (lockProgram r).count LockStep.checked = 1 := by
  cases hg : r.goodInc <;> simp [lockProgram, hc, hg]

theorem doneSteps_count_le (x : CheckResult × Nat) (a : LockStep) :
    (doneSteps x).count a ≤ (lockProgram x.1).count a :=
  (List.take_sublist _ _).count_le a

theorem checkedCount_le_length (s : RunState) : checkedCount s ≤ s.length := by
  unfold checkedCount
  have h1 : ∀ y ∈ s.map (fun x => (doneSteps x).count LockStep.checked), y ≤ 1 := by
    intro y hy
    obtain ⟨x, hx, rfl⟩ := List.mem_map.1 hy
    exact le_trans (doneSteps_count_le x _) (lockProgram_count_checked_le_one x.1)
  calc (s.map fun x => (doneSteps x).count LockStep.checked).sum
      ≤ (s.map fun x => (doneSteps x).count LockStep.checked).length • 1 :=
        List.sum_le_card_nsmul _ 1 h1
    _ = s.length := by simp

/-- C2 (amended): `checked_count ≤ total` holds at every reachable state,
and at pool drain `good_count ≤ checked_count ≤ total`; at an intermediate
snapshot `good_count ≤ checked_count` need not hold, because a passing
invocation increments `good_proxies_count` before its cleanup increment of
`checked_count` (see the counterexample). -/
theorem claim2_amended_counter_invariant
    (inputs : List (Str × Config × Net)) (progress : List Nat)
    (hlen : progress.length = inputs.length)
    (_hvalid : ValidState (runState inputs progress)) :
    checkedCount (runState inputs progress) ≤ inputs.length ∧
    (CompleteState (runState inputs progress) →
      goodCount (runState inputs progress) ≤
        checkedCount (runState inputs progress)) := by
  have hslen : (runState inputs progress).length = inputs.length := by
    simp [runState, results, hlen]
  constructor
  · rw [← hslen]
    exact checkedCount_le_length _
  · intro hcomp
    unfold goodCount checkedCount
    refine List.sum_le_sum ?_
    intro x hx
    have hdone : doneSteps x = lockProgram x.1 := by
      rw [doneSteps, hcomp x hx, List.take_length]
    rw [hdone]
    exact lockProgram_count_good_le_checked x.1

/-- Witness for the amended C2 at a concrete completed two-proxy run. -/
theorem claim2_amended_witness :
    goodCount (runState exInputs [2, 2]) ≤ checkedCount (runState exInputs [2, 2]) :=
  (claim2_amended_counter_invariant exInputs [2, 2] (by decide) (by decide)).2
    (by decide)

/-- C2 counterexample: with two concurrently passing proxies, the state in
which the first invocation has executed both of its lock sections (so its
cleanup snapshot has just read the counters) while the second has executed
only its good-increment section is reachable, and that snapshot observes
`good_count = 2 > 1 = checked_count`, refuting the claim that
`good_count ≤ checked_count` holds at every observation point. -/
theorem claim2_counterexample :
    ValidState (runState exInputs [2, 1]) ∧
    SnapshotPoint (runState exInputs [2, 1]) ∧
    ¬ (goodCount (runState exInputs [2, 1]) ≤
        checkedCount (runState exInputs [2, 1])) := by
  decide

/-- C9: over well-formed addresses, at pool drain `checked_count` equals the
number of dispatched addresses (no update is lost, every invocation counts
exactly once), and every sink element is one complete `host:port` line of a
written invocation, terminated by its newline. -/
theorem claim9_drain_count_and_sink_lines
    (inputs : List (Str × Config × Net)) (progress : List Nat)
    (hlen : progress.length = inputs.length)
    (hwf : ∀ t ∈ inputs, formatOk t.1 = true)
    (hcomp : CompleteState (runState inputs progress)) :
    checkedCount (runState inputs progress) = inputs.length ∧
    (∀ line ∈ sinkLines inputs, ∃ t ∈ inputs,
      (check_proxy t.1 t.2.1 t.2.2).written = true ∧ line = t.1 ++ ['\n']) := by
  constructor
  · have hone : ∀ x ∈ runState inputs progress,
        (doneSteps x).count LockStep.checked = 1 := by
      intro x hx
      have hdone : doneSteps x = lockProgram x.1 := by
        rw [doneSteps, hcomp x hx, List.take_length]
      have hx1 : x.1 ∈ results inputs := (List.of_mem_zip hx).1
      obtain ⟨t, ht, hres⟩ := List.mem_map.1 hx1
      have hc : x.1.counted = true := by
        rw [← hres, check_proxy_counted]
        exact hwf t ht
      rw [hdone, lockProgram_count_checked_of_counted x.1 hc]
    have hslen : (runState inputs progress).length = inputs.length := by
      simp [runState, results, hlen]
    unfold checkedCount
    rw [List.map_congr_left hone]
    simp [hslen]
  · intro line hline
    obtain ⟨t, htmem, rfl⟩ := List.mem_map.1 hline
    have hmf := List.mem_filter.1 htmem
    exact ⟨t, hmf.1, by simpa using hmf.2, rfl⟩

/-- Witness for C9 at a concrete completed two-proxy run. -/
theorem claim9_witness :
    checkedCount (runState exInputs [2, 2]) = exInputs.length :=
  (claim9_drain_count_and_sink_lines exInputs [2, 2] (by decide) (by decide)
    (by decide)).1

/-- Witness for C10 at a concrete DNS-name proxy: the echo reports an IP
literal and the proxy fails with the mismatch diagnostic. -/
theorem claim10_witness :
    FailedWith (check_proxy proxyHost cfgW netEchoIp)
      (Diag.ipMismatch ("proxy.example.com".data) ("93.184.216.34".data)) :=
  (claim10_hostname_proxy_never_passes proxyHost ("proxy.example.com".data)
      ("8080".data) cfgW netEchoIp (by decide) (by decide) (by decide)
      (fun seen hip => by
        have hc : IpCheckNet.ok ("93.184.216.34".data) = IpCheckNet.ok seen := hip
        cases hc
        decide)).2.2.1 ("93.184.216.34".data) (by decide)

/-- C4: the dispatched list is duplicate-free even when an address occurs in
several import files, each invocation performs at most one sink append (at
most one `good` lock section), and consequently the sink lines of a run over
the loaded list are duplicate-free. -/
theorem claim4_dedup_and_unique_sink
    (files : List (List Str)) (inputs : List (Str × Config × Net))
    (hin : inputs.map Prod.fst = load_proxies files) :
    (load_proxies files).Nodup ∧
    (sinkLines inputs).Nodup ∧
    (∀ t ∈ inputs,
      (lockProgram (check_proxy t.1 t.2.1 t.2.2)).count LockStep.good ≤ 1) := by
  refine ⟨List.nodup_dedup _, ?_, ?_⟩
  · have hnodup : (inputs.map Prod.fst).Nodup := by
      rw [hin]
      exact List.nodup_dedup _
    have hfil : ((inputs.filter fun t =>
        (check_proxy t.1 t.2.1 t.2.2).written).map Prod.fst).Nodup :=
      (((List.filter_sublist _).map Prod.fst).nodup) hnodup
    have hrw : sinkLines inputs =
        ((inputs.filter fun t => (check_proxy t.1 t.2.1 t.2.2).written).map
          Prod.fst).map (fun s => s ++ ['\n']) := by
      unfold sinkLines
      rw [List.map_map]
      rfl
    rw [hrw]
    exact hfil.map (List.append_left_injective _)
  · intro t ht
    exact le_trans (lockProgram_count_good_le_checked _)
      (lockProgram_count_checked_le_one _)

/-- Witness for C4 at the sample files: the same address in two files (once
surrounded by blanks) is dispatched once. -/
theorem claim4_witness : (load_proxies filesW).Nodup :=
  (claim4_dedup_and_unique_sink filesW inputsW (by decide)).1

theorem hostStage_ping_disabled (b : Bool) (cfg : Config) (net : Net)
    (hep : cfg.enable_ping = false) :
    (hostStage b cfg net).pingProbeRan = false ∧
    (hostStage b cfg net).disablePing = false := by
  obtain ⟨ipc, host, ping, speed, w⟩ := net
  unfold hostStage
  cases host <;> simp [netFail, hep]

theorem ipStage_ping_disabled (ip : Str) (cfg : Config) (net : Net)
    (hep : cfg.enable_ping = false) :
    (ipStage ip cfg net).pingProbeRan = false ∧
    (ipStage ip cfg net).disablePing = false := by
  unfold ipStage
  by_cases hpriv : is_private_ip ip
  · simp [hpriv, hostStage_ping_disabled _ cfg net hep]
  · obtain ⟨ipc, host, ping, speed, w⟩ := net
    simp only [hpriv]
    cases ipc with
    | ok seen =>
      by_cases hs : seen = ip <;>
        simp [hs, hostStage_ping_disabled, hep, netFail]
    | timeout => simp [netFail]
    | reqError e => simp [netFail]
    | unexpected e => simp [netFail]

theorem check_proxy_ping_disabled (proxy : Str) (cfg : Config) (net : Net)
    (hep : cfg.enable_ping = false) :
    (check_proxy proxy cfg net).pingProbeRan = false ∧
    (check_proxy proxy cfg net).disablePing = false := by
  unfold check_proxy
  cases hs : splitFirstColon proxy with
  | none => simp [formatFail]
  | some hp =>
    obtain ⟨ip, port⟩ := hp
    by_cases hpv : portValid port
    · simp [hpv, ipStage_ping_disabled ip cfg net hep]
    · simp [hpv, formatFail]

theorem hostStage_ping_independent (b : Bool) (cfg : Config) (ipc : IpCheckNet)
    (host : HostCheckNet) (p1 p2 : PingNet) (sp : Option Nat) (w : Bool) :
    (hostStage b cfg ⟨ipc, host, p1, sp, w⟩).statusColor =
        (hostStage b cfg ⟨ipc, host, p2, sp, w⟩).statusColor ∧
    (hostStage b cfg ⟨ipc, host, p1, sp, w⟩).written =
        (hostStage b cfg ⟨ipc, host, p2, sp, w⟩).written ∧
    (hostStage b cfg ⟨ipc, host, p1, sp, w⟩).goodInc =
        (hostStage b cfg ⟨ipc, host, p2, sp, w⟩).goodInc ∧
    (hostStage b cfg ⟨ipc, host, p1, sp, w⟩).counted =
        (hostStage b cfg ⟨ipc, host, p2, sp, w⟩).counted := by
  unfold hostStage
  cases host <;> simp [netFail]

theorem ipStage_ping_independent (ip : Str) (cfg : Config) (net : Net) (x : PingNet) :
    (ipStage ip cfg { net with ping := x }).statusColor =
        (ipStage ip cfg net).statusColor ∧
    (ipStage ip cfg { net with ping := x }).written =
        (ipStage ip cfg net).written ∧
    (ipStage ip cfg { net with ping := x }).goodInc =
        (ipStage ip cfg net).goodInc ∧
    (ipStage ip cfg { net with ping := x }).counted =
        (ipStage ip cfg net).counted := by
  obtain ⟨ipc, host, ping, speed, w⟩ := net
  unfold ipStage
  by_cases hpriv : is_private_ip ip
  · simp only [hpriv, if_true]
    exact hostStage_ping_independent _ cfg ipc host x ping speed w
  · simp only [hpriv]
    cases ipc with
    | ok seen =>
      by_cases hs : seen = ip
      · simp only [hs, ne_eq, not_true_eq_false, if_false, reduceIte]
        exact hostStage_ping_independent _ cfg _ host x ping speed w
      · simp [hs, netFail]
    | timeout => simp [netFail]
    | reqError e => simp [netFail]
    | unexpected e => simp [netFail]

theorem check_proxy_ping_independent (proxy : Str) (cfg : Config) (net : Net)
    (x : PingNet) :
    (check_proxy proxy cfg { net with ping := x }).statusColor =
        (check_proxy proxy cfg net).statusColor ∧
    (check_proxy proxy cfg { net with ping := x }).written =
        (check_proxy proxy cfg net).written ∧
    (check_proxy proxy cfg { net with ping := x }).goodInc =
        (check_proxy proxy cfg net).goodInc ∧
    (check_proxy proxy cfg { net with ping := x }).counted =
        (check_proxy proxy cfg net).counted := by
  unfold check_proxy
  cases hs : splitFirstColon proxy with
  | none => simp [formatFail]
  | some hp =>
    obtain ⟨ip, port⟩ := hp
    by_cases hpv : portValid port
    · simp [hpv, ipStage_ping_independent]
    · simp [hpv, formatFail]

theorem finalFlag_eq (f : Bool) (ds : List Bool) :
    finalFlag f ds = (f && !ds.any id) := by
  induction ds generalizing f with
  | nil => simp [finalFlag]
  | cons d ds ih =>
    have h1 : finalFlag f (d :: ds) = finalFlag (storeFalse f d) ds := rfl
    rw [h1, ih]
    cases d <;> simp [storeFalse]

theorem finalFlag_perm (f : Bool) (ds₁ ds₂ : List Bool) (hperm : ds₁.Perm ds₂) :
    finalFlag f ds₁ = finalFlag f ds₂ := by
  rw [finalFlag_eq, finalFlag_eq]
  have hany : ds₁.any id = ds₂.any id := by
    cases h2 : ds₂.any id with
    | true =>
      obtain ⟨a, ha, hpa⟩ := List.any_eq_true.1 h2
      exact List.any_eq_true.2 ⟨a, hperm.mem_iff.2 ha, hpa⟩
    | false =>
      cases h1 : ds₁.any id with
      | false => rfl
      | true =>
        obtain ⟨a, ha, hpa⟩ := List.any_eq_true.1 h1
        have h3 := List.any_eq_true.2 ⟨a, hperm.mem_iff.1 ha, hpa⟩
        rw [h2] at h3
        exact absurd h3 Bool.false_ne_true
  rw [hany]

theorem seqRun_append (flag : Bool) (ts₁ ts₂ : List (Str × Config × Net)) :
    seqRun flag (ts₁ ++ ts₂) =
      seqRun flag ts₁ ++ seqRun (flagAfter flag ts₁) ts₂ := by
  induction ts₁ generalizing flag with
  | nil => rfl
  | cons t ts ih => simp [seqRun, flagAfter, ih]

theorem seqRun_false_no_ping (ts : List (Str × Config × Net)) :
    ∀ r ∈ seqRun false ts, r.pingProbeRan = false ∧ r.disablePing = false := by
  induction ts with
  | nil =>
    intro r hr
    simp [seqRun] at hr
  | cons t ts ih =>
    intro r hr
    have hr2 : r ∈ check_proxy t.1 { t.2.1 with enable_ping := false } t.2.2 ::
        seqRun false ts := hr
    rcases List.mem_cons.1 hr2 with heq | hmem
    · subst heq
      exact check_proxy_ping_disabled _ _ _ rfl
    · exact ih r hmem

theorem flagAfter_false (ts : List (Str × Config × Net)) :
    flagAfter false ts = false := by
  induction ts with
  | nil => rfl
  | cons t ts ih => exact ih

theorem flagAfter_false_of_detect (flag : Bool) (ts : List (Str × Config × Net))
    (hdet : ∃ r ∈ seqRun flag ts, r.disablePing = true) :
    flagAfter flag ts = false := by
  induction ts generalizing flag with
  | nil =>
    obtain ⟨r, hr, _⟩ := hdet
    simp [seqRun] at hr
  | cons t ts ih =>
    obtain ⟨r, hr, hd⟩ := hdet
    have hr2 : r ∈ check_proxy t.1 { t.2.1 with enable_ping := flag } t.2.2 ::
        seqRun (flag &&
          !(check_proxy t.1 { t.2.1 with enable_ping := flag } t.2.2).disablePing)
          ts := hr
    show flagAfter (flag &&
      !(check_proxy t.1 { t.2.1 with enable_ping := flag } t.2.2).disablePing)
      ts = false
    rcases List.mem_cons.1 hr2 with heq | hmem
    · rw [heq] at hd
      rw [hd]
      simp only [Bool.not_true, Bool.and_false]
      exact flagAfter_false ts
    · exact ih _ ⟨r, hmem, hd⟩

/-- C8: a run of `ping_host` that finds the ping binary missing returns no
measurement and stores `False` into the shared flag; the ping outcome never
influences a proxy's colour, sink write, good increment or counting (so the
triggering proxy is not failed by the discovery); the flag store is
idempotent and order-independent across concurrent detections; and in the
sequential flag semantics, once an invocation detects the missing tool the
whole rest of the run skips the ping probe. -/
theorem claim8_ping_tool_missing_handling :
    ping_host PingNet.toolMissing = (none, true) ∧
    (∀ proxy cfg net x,
      (check_proxy proxy cfg { net with ping := x }).statusColor =
          (check_proxy proxy cfg net).statusColor ∧
      (check_proxy proxy cfg { net with ping := x }).written =
          (check_proxy proxy cfg net).written ∧
      (check_proxy proxy cfg { net with ping := x }).goodInc =
          (check_proxy proxy cfg net).goodInc ∧
      (check_proxy proxy cfg { net with ping := x }).counted =
          (check_proxy proxy cfg net).counted) ∧
    (∀ f ds, finalFlag f ds = (f && !ds.any id)) ∧
    (∀ f ds₁ ds₂, ds₁.Perm ds₂ → finalFlag f ds₁ = finalFlag f ds₂) ∧
    (∀ flag ts₁ ts₂, (∃ r ∈ seqRun flag ts₁, r.disablePing = true) →
      seqRun flag (ts₁ ++ ts₂) = seqRun flag ts₁ ++ seqRun false ts₂ ∧
      ∀ r ∈ seqRun false ts₂, r.pingProbeRan = false) := by
  refine ⟨rfl, check_proxy_ping_independent, finalFlag_eq, finalFlag_perm, ?_⟩
  intro flag ts₁ ts₂ hdet
  constructor
  · rw [seqRun_append, flagAfter_false_of_detect flag ts₁ hdet]
  · intro r hr
    exact (seqRun_false_no_ping ts₂ r hr).1

/-- Witness for C8 at a concrete run: the first invocation detects the
missing tool, the remaining invocations run with ping globally disabled. -/
theorem claim8_witness :
    seqRun true (exToolMissing ++ exInputs) =
      seqRun true exToolMissing ++ seqRun false exInputs ∧
    ∀ r ∈ seqRun false exInputs, r.pingProbeRan = false :=
  claim8_ping_tool_missing_handling.2.2.2.2 true exToolMissing exInputs (by decide)

end ProxyCheck
